/-
  Verification of the object-io S3-compatible object storage server.

  Shallow embedding of the relevant Rust source into Lean 4:
  - crates/object-io-api/src/auth/sigv4.rs  (SigV4 canonicalization and signing)
  - crates/object-io-api/src/auth.rs        (auth middleware, timestamp extraction)
  - crates/object-io-core/src/utils.rs      (bucket name validation, ETag)
  - crates/object-io-core/src/error.rs      (error taxonomy)
  - crates/object-io-metadata/src/operations.rs (metadata store operations)
  - crates/object-io-database/src/operations.rs (embedded key-value store draft)
  - crates/object-io-storage/src/filesystem.rs  (filesystem storage backend)
  - crates/object-io-api/src/handlers/{bucket,object}.rs (HTTP handlers)

  Machine integers are modelled as Nat with explicit reduction modulo 2^32
  (or 2^64) where the Rust code works with u32/u64. Byte strings are
  List Nat with every element < 256 by construction. Fallible Rust code
  returning Result is modelled with Except.
-/
import Mathlib

set_option maxRecDepth 10000

namespace OIO

/-! ## Bytes, hex, and SHA-256 (models the sha2 / hmac / hex crates used by the source) -/

/-- Rust char-as-u8 truncation: the low byte of the unicode scalar value. -/
def byteOfChar (c : Char) : Nat := c.toNat % 256

/-- UTF-8 encoding of one character. -/
def utf8Bytes (c : Char) : List Nat :=
  let n := c.toNat
  if n < 0x80 then [n]
  else if n < 0x800 then
    [0xC0 ||| (n >>> 6), 0x80 ||| (n &&& 0x3F)]
  else if n < 0x10000 then
    [0xE0 ||| (n >>> 12), 0x80 ||| ((n >>> 6) &&& 0x3F), 0x80 ||| (n &&& 0x3F)]
  else
    [0xF0 ||| (n >>> 18), 0x80 ||| ((n >>> 12) &&& 0x3F),
     0x80 ||| ((n >>> 6) &&& 0x3F), 0x80 ||| (n &&& 0x3F)]

/-- UTF-8 bytes of a string, as the Rust str::as_bytes view. -/
def strBytes (s : String) : List Nat := s.data.foldr (fun c acc => utf8Bytes c ++ acc) []

/-- str::split on a single char: "a&&b" gives ["a", "", "b"], "" gives [""]. -/
def splitChar (sep : Char) : List Char → List (List Char)
  | [] => [[]]
  | c :: rest =>
    let r := splitChar sep rest
    if c == sep then [] :: r
    else
      match r with
      | [] => [[c]]
      | h :: t => (c :: h) :: t

/-- str::split on a multi-char pattern, fuelled by the input length. -/
def splitSubGo (sep : List Char) : Nat → List Char → List (List Char)
  | _, [] => [[]]
  | 0, l => [l]
  | fuel + 1, l@(c :: rest) =>
    if sep ≠ [] ∧ sep.isPrefixOf l then
      [] :: splitSubGo sep fuel (rest.drop (sep.length - 1))
    else
      match splitSubGo sep fuel rest with
      | [] => [[c]]
      | h :: t => (c :: h) :: t

def splitSub (sep l : List Char) : List (List Char) := splitSubGo sep l.length l

/-- str::contains(pattern): the pattern occurs as a contiguous subsequence. -/
def subOccurs (pat : List Char) : List Char → Bool
  | [] => pat.isEmpty
  | l@(_ :: rest) => if pat.isPrefixOf l then true else subOccurs pat rest

/-- str::trim (the claims only exercise ASCII whitespace). -/
def trimChars (l : List Char) : List Char :=
  ((l.dropWhile Char.isWhitespace).reverse.dropWhile Char.isWhitespace).reverse

def strTrim (s : String) : String := String.mk (trimChars s.data)

/-- Vec::join(sep). -/
def intercalateStr (sep : String) : List String → String
  | [] => ""
  | x :: rest => rest.foldl (fun acc y => acc ++ sep ++ y) x

/-- Lower-case hex digit for a nibble. -/
def hexDigitLower (n : Nat) : Char :=
  if n < 10 then Char.ofNat (48 + n) else Char.ofNat (87 + n)

/-- Upper-case hex digit for a nibble. -/
def hexDigitUpper (n : Nat) : Char :=
  if n < 10 then Char.ofNat (48 + n) else Char.ofNat (55 + n)

/-- hex::encode — lower-case hex of a byte list. -/
def hex_encode (bs : List Nat) : String :=
  String.mk (bs.foldr (fun b acc => hexDigitLower (b / 16 % 16) :: hexDigitLower (b % 16) :: acc) [])

/-- Value of one hex digit character, case-insensitive. -/
def hexDigitVal (c : Char) : Option Nat :=
  if '0' ≤ c ∧ c ≤ '9' then some (c.toNat - 48)
  else if 'a' ≤ c ∧ c ≤ 'f' then some (c.toNat - 87)
  else if 'A' ≤ c ∧ c ≤ 'F' then some (c.toNat - 55)
  else none

/-- hex::decode — pairs of hex digits to bytes; fails on odd length or a
non-hex character. -/
def hexDecodeChars : List Char → Option (List Nat)
  | [] => some []
  | [_] => none
  | c1 :: c2 :: rest => do
      let d1 ← hexDigitVal c1
      let d2 ← hexDigitVal c2
      let tail ← hexDecodeChars rest
      pure ((d1 * 16 + d2) :: tail)

def hex_decode (s : String) : Option (List Nat) := hexDecodeChars s.data

/-- 32-bit rotate right on a Nat below 2^32. -/
def rotr (n x : Nat) : Nat := ((x >>> n) ||| (x <<< (32 - n))) % 4294967296

/-- SHA-256 round constants. -/
def sha256K : List Nat :=
  [1116352408, 1899447441, 3049323471, 3921009573, 961987163,
   1508970993, 2453635748, 2870763221, 3624381080, 310598401,
   607225278, 1426881987, 1925078388, 2162078206, 2614888103,
   3248222580, 3835390401, 4022224774, 264347078, 604807628,
   770255983, 1249150122, 1555081692, 1996064986, 2554220882,
   2821834349, 2952996808, 3210313671, 3336571891, 3584528711,
   113926993, 338241895, 666307205, 773529912, 1294757372,
   1396182291, 1695183700, 1986661051, 2177026350, 2456956037,
   2730485921, 2820302411, 3259730800, 3345764771, 3516065817,
   3600352804, 4094571909, 275423344, 430227734, 506948616,
   659060556, 883997877, 958139571, 1322822218, 1537002063,
   1747873779, 1955562222, 2024104815, 2227730452, 2361852424,
   2428436474, 2756734187, 3204031479, 3329325298]

/-- Group bytes into big-endian 32-bit words. -/
def bytesToWords32 : List Nat → List Nat
  | b0 :: b1 :: b2 :: b3 :: rest =>
      (((b0 * 256 + b1) * 256 + b2) * 256 + b3) :: bytesToWords32 rest
  | _ => []

/-- Big-endian 8-byte encoding of a Nat (mod 2^64). -/
def be64 (n : Nat) : List Nat :=
  [n >>> 56 % 256, n >>> 48 % 256, n >>> 40 % 256, n >>> 32 % 256,
   n >>> 24 % 256, n >>> 16 % 256, n >>> 8 % 256, n % 256]

/-- Big-endian 4-byte encoding of a Nat below 2^32. -/
def be32 (n : Nat) : List Nat :=
  [n >>> 24 % 256, n >>> 16 % 256, n >>> 8 % 256, n % 256]

/-- SHA-256 message padding: 0x80, zeros to 56 mod 64, then the bit length. -/
def sha256pad (msg : List Nat) : List Nat :=
  msg ++ 0x80 :: List.replicate ((119 - msg.length % 64) % 64) 0 ++ be64 (8 * msg.length)

/-- Split into 64-byte blocks (fuelled by the list length so that the
recursion is structural). -/
def chunksGo : Nat → List Nat → List (List Nat)
  | 0, _ => []
  | _ + 1, [] => []
  | fuel + 1, l@(_ :: _) => l.take 64 :: chunksGo fuel (l.drop 64)

def chunks64 (l : List Nat) : List (List Nat) := chunksGo l.length l

/-- Message-schedule extension: rev holds already-computed words, newest first. -/
def schedExtend (rev : List Nat) : Nat → List Nat
  | 0 => rev
  | n + 1 =>
      let w2 := rev.getD 1 0
      let w7 := rev.getD 6 0
      let w15 := rev.getD 14 0
      let w16 := rev.getD 15 0
      let s0 := (rotr 7 w15) ^^^ (rotr 18 w15) ^^^ (w15 >>> 3)
      let s1 := (rotr 17 w2) ^^^ (rotr 19 w2) ^^^ (w2 >>> 10)
      schedExtend (((w16 + s0 + w7 + s1) % 4294967296) :: rev) n

/-- Full 64-word message schedule for one block. -/
def sha256Schedule (block : List Nat) : List Nat :=
  (schedExtend (bytesToWords32 block).reverse 48).reverse

/-- SHA-256 working state. -/
structure H8 where
  a : Nat
  b : Nat
  c : Nat
  d : Nat
  e : Nat
  f : Nat
  g : Nat
  hh : Nat
deriving Repr, DecidableEq

def sha256Init : H8 :=
  ⟨1779033703, 3144134277, 1013904242, 2773480762,
   1359893119, 2600822924, 528734635, 1541459225⟩

def sha256Round (s : H8) (kw : Nat × Nat) : H8 :=
  let S1 := (rotr 6 s.e) ^^^ (rotr 11 s.e) ^^^ (rotr 25 s.e)
  let ch := (s.e &&& s.f) ^^^ ((s.e ^^^ 4294967295) &&& s.g)
  let t1 := (s.hh + S1 + ch + kw.1 + kw.2) % 4294967296
  let S0 := (rotr 2 s.a) ^^^ (rotr 13 s.a) ^^^ (rotr 22 s.a)
  let maj := (s.a &&& s.b) ^^^ (s.a &&& s.c) ^^^ (s.b &&& s.c)
  let t2 := (S0 + maj) % 4294967296
  ⟨(t1 + t2) % 4294967296, s.a, s.b, s.c, (s.d + t1) % 4294967296, s.e, s.f, s.g⟩

def addH8 (x y : H8) : H8 :=
  ⟨(x.a + y.a) % 4294967296, (x.b + y.b) % 4294967296, (x.c + y.c) % 4294967296,
   (x.d + y.d) % 4294967296, (x.e + y.e) % 4294967296, (x.f + y.f) % 4294967296,
   (x.g + y.g) % 4294967296, (x.hh + y.hh) % 4294967296⟩

def sha256Block (hs : H8) (block : List Nat) : H8 :=
  addH8 hs ((sha256K.zip (sha256Schedule block)).foldl sha256Round hs)

/-- SHA-256 of a byte list, producing the 32 digest bytes. -/
def sha256 (msg : List Nat) : List Nat :=
  let hs := (chunks64 (sha256pad msg)).foldl sha256Block sha256Init
  be32 hs.a ++ be32 hs.b ++ be32 hs.c ++ be32 hs.d ++
  be32 hs.e ++ be32 hs.f ++ be32 hs.g ++ be32 hs.hh

/-- HMAC-SHA256 (block size 64). Models the hmac crate; new_from_slice never
fails for SHA-256, so the Result wrapper around it in the source is dead
and the operation is modelled as total. -/
def hmac_sha256 (key data : List Nat) : List Nat :=
  let k0 := if 64 < key.length then sha256 key else key
  let k := k0 ++ List.replicate (64 - k0.length) 0
  sha256 ((k.map (fun b => b ^^^ 0x5c)) ++ sha256 ((k.map (fun b => b ^^^ 0x36)) ++ data))

/-! ## Error model (crates/object-io-core/src/error.rs and its use in object-io-api)

core/error.rs declares the full taxonomy (BucketNotFound, ObjectNotFound, ...).
The auth path in object-io-api constructs a variant written
ObjectIOError::AuthError { message }; the embedding carries the variants the
modelled code paths construct or match on. -/

inductive ObjectIOError where
  | AuthError (message : String)
  | BucketNotFound (bucket : String)
  | ObjectNotFound (bucket : String) (key : String)
  | BucketAlreadyExists (bucket : String)
  | InvalidBucketName (bucket : String)
  | InvalidObjectKey (key : String)
  | StorageError (message : String)
  | DatabaseError (message : String)
deriving DecidableEq, Repr

instance {ε α : Type} [DecidableEq ε] [DecidableEq α] : DecidableEq (Except ε α) :=
  fun x y =>
    match x, y with
    | .ok a, .ok b =>
        if h : a = b then .isTrue (h ▸ rfl) else .isFalse (fun he => h (Except.ok.inj he))
    | .error a, .error b =>
        if h : a = b then .isTrue (h ▸ rfl) else .isFalse (fun he => h (Except.error.inj he))
    | .ok _, .error _ => .isFalse (fun he => Except.noConfusion he)
    | .error _, .ok _ => .isFalse (fun he => Except.noConfusion he)

/-! ## Timestamps (chrono DateTime of Utc, restricted to the fields the code formats) -/

structure Timestamp where
  year : Nat
  month : Nat
  day : Nat
  hour : Nat
  minute : Nat
  second : Nat
deriving DecidableEq, Repr

def pad2 (n : Nat) : String := if n < 10 then "0" ++ toString n else toString n

def pad4 (n : Nat) : String :=
  if n < 10 then "000" ++ toString n
  else if n < 100 then "00" ++ toString n
  else if n < 1000 then "0" ++ toString n
  else toString n

/-- chrono format string "%Y%m%d". -/
def format_date (t : Timestamp) : String := pad4 t.year ++ pad2 t.month ++ pad2 t.day

/-- chrono format string "%Y%m%dT%H%M%SZ". -/
def format_amz (t : Timestamp) : String :=
  format_date t ++ "T" ++ pad2 t.hour ++ pad2 t.minute ++ pad2 t.second ++ "Z"

/-! ## SigV4 (crates/object-io-api/src/auth/sigv4.rs) -/

/-- ASCII lower-casing, as str::to_lowercase on the ASCII header names the
http crate admits. -/
def ascii_lower (s : String) : String :=
  String.mk (s.data.map fun c => if 'A' ≤ c ∧ c ≤ 'Z' then Char.ofNat (c.toNat + 32) else c)

/-- Byte-lexicographic order, as Rust String::cmp. -/
def bytesLe : List Nat → List Nat → Bool
  | [], _ => true
  | _ :: _, [] => false
  | x :: xs, y :: ys => if x < y then true else if y < x then false else bytesLe xs ys

def keyLe (a b : String) : Bool := bytesLe (strBytes a) (strBytes b)

abbrev pairKeyLe (a b : String × String) : Prop := keyLe a.1 b.1 = true

abbrev strKeyLe (a b : String) : Prop := keyLe a b = true

/-- The stable sort_by of the source, modelled as stable insertion sort
(extensionally equal to any stable sort under the same key order). -/
def sortPairs (ps : List (String × String)) : List (String × String) :=
  List.insertionSort pairKeyLe ps

def sortStrings (ss : List String) : List String :=
  List.insertionSort strKeyLe ss

/-- fn percent_encode: unreserved characters pass through, every other char is
%XX upper-hex of its low byte (Rust c as u8). -/
def percent_encode_char (c : Char) : String :=
  if ('A' ≤ c ∧ c ≤ 'Z') ∨ ('a' ≤ c ∧ c ≤ 'z') ∨ ('0' ≤ c ∧ c ≤ '9') ∨
     c = '-' ∨ c = '_' ∨ c = '.' ∨ c = '~'
  then String.singleton c
  else String.mk ['%', hexDigitUpper (byteOfChar c / 16), hexDigitUpper (byteOfChar c % 16)]

def percent_encode (input : String) : String :=
  String.join (input.data.map percent_encode_char)

/-- str::splitn(2, sep) on the char sep, restricted to the first split. -/
def splitFirstEq : List Char → List Char × Option (List Char)
  | [] => ([], none)
  | '=' :: rest => ([], some rest)
  | c :: rest =>
      let r := splitFirstEq rest
      (c :: r.1, r.2)

/-- The filter_map closure of canonical_query_string: split on the
ampersand, split each parameter at its first equals sign, percent-encode
key and value (an absent value becomes the empty string). -/
def queryPairs (query_string : String) : List (String × String) :=
  (splitChar '&' query_string.data).map fun param =>
    match splitFirstEq param with
    | (k, some v) => (percent_encode (String.mk k), percent_encode (String.mk v))
    | (k, none) => (percent_encode (String.mk k), "")

/-- The rendering closure of canonical_query_string. -/
def renderPair (kv : String × String) : String :=
  if kv.2 = "" then kv.1 else kv.1 ++ "=" ++ kv.2

/-- SigV4Validator::canonical_query_string. -/
def canonical_query_string (query_string : String) : String :=
  if query_string = "" then "" else
  intercalateStr "&" ((sortPairs (queryPairs query_string)).map renderPair)

/-- SigV4Validator::canonical_uri. -/
def canonical_uri (uri : String) : String := if uri = "" then "/" else uri

/-- SigV4Validator::canonical_headers. Header values are modelled as strings
(HeaderValue::to_str on the embedded values is total). -/
def canonical_headers (headers : List (String × String)) : String :=
  let hs := sortPairs (headers.map fun nv => (ascii_lower nv.1, strTrim nv.2))
  intercalateStr "\n" (hs.map fun nv => nv.1 ++ ":" ++ nv.2) ++ "\n"

/-- SigV4Validator::signed_headers. -/
def signed_headers (headers : List (String × String)) : String :=
  intercalateStr ";" (sortStrings (headers.map fun nv => ascii_lower nv.1))

structure SignatureRequest where
  method : String
  uri : String
  query_string : String
  headers : List (String × String)
  payload_hash : String
  timestamp : Timestamp

/-- SigV4Validator::create_canonical_request. -/
def create_canonical_request (r : SignatureRequest) : String :=
  r.method ++ "\n" ++ canonical_uri r.uri ++ "\n" ++ canonical_query_string r.query_string
    ++ "\n" ++ canonical_headers r.headers ++ "\n" ++ signed_headers r.headers
    ++ "\n" ++ r.payload_hash

/-- SigV4Validator::create_string_to_sign. -/
def create_string_to_sign (region service : String) (canonical_request : String)
    (timestamp : Timestamp) : String :=
  let credential_scope := format_date timestamp ++ "/" ++ region ++ "/" ++ service
    ++ "/aws4_request"
  "AWS4-HMAC-SHA256" ++ "\n" ++ format_amz timestamp ++ "\n" ++ credential_scope ++ "\n"
    ++ hex_encode (sha256 (strBytes canonical_request))

/-- SigV4Validator::derive_signing_key. -/
def derive_signing_key (region service secret_key : String) (timestamp : Timestamp) :
    List Nat :=
  let date_key := hmac_sha256 (strBytes ("AWS4" ++ secret_key)) (strBytes (format_date timestamp))
  let date_region_key := hmac_sha256 date_key (strBytes region)
  let date_region_service_key := hmac_sha256 date_region_key (strBytes service)
  hmac_sha256 date_region_service_key (strBytes "aws4_request")

/-- SigV4Validator::calculate_signature. -/
def calculate_signature (string_to_sign : String) (signing_key : List Nat) : List Nat :=
  hmac_sha256 signing_key (strBytes string_to_sign)

/-- SigV4Validator::generate_signature. -/
def generate_signature (region service : String) (r : SignatureRequest)
    (secret_key : String) : String :=
  let canonical_request := create_canonical_request r
  let string_to_sign := create_string_to_sign region service canonical_request r.timestamp
  let signing_key := derive_signing_key region service secret_key r.timestamp
  hex_encode (calculate_signature string_to_sign signing_key)

/-- fn constant_time_eq. -/
def constant_time_eq (a b : List Nat) : Bool :=
  if a.length ≠ b.length then false
  else ((a.zip b).foldl (fun r p => r ||| (p.1 ^^^ p.2)) 0) = 0

structure AuthorizationHeader where
  algorithm : String
  credential : String
  signed_header_list : List String
  signature : String
deriving Repr

/-- Accumulator pass of AuthorizationHeader::parse over the comma-split parts. -/
def scanAuthParts :
    List (List Char) → Option String × Option (List String) × Option String →
    Option String × Option (List String) × Option String
  | [], acc => acc
  | part :: rest, (cred, sh, sig) =>
      if "Credential=".data.isPrefixOf part then
        scanAuthParts rest (some (String.mk (part.drop 11)), sh, sig)
      else if "SignedHeaders=".data.isPrefixOf part then
        scanAuthParts rest
          (cred, some ((splitChar ';' (part.drop 14)).map String.mk), sig)
      else if "Signature=".data.isPrefixOf part then
        scanAuthParts rest (cred, sh, some (String.mk (part.drop 10)))
      else
        scanAuthParts rest (cred, sh, sig)

/-- AuthorizationHeader::parse. -/
def authHeaderParse (auth_header : String) : Except ObjectIOError AuthorizationHeader :=
  if ¬ "AWS4-HMAC-SHA256 ".data.isPrefixOf auth_header.data then
    .error (.AuthError "Invalid authorization algorithm")
  else
    match scanAuthParts (splitSub [',', ' '] (auth_header.data.drop 17))
        (none, none, none) with
    | (cred, sh, sig) =>
      match cred with
      | none => .error (.AuthError "Missing credential in authorization header")
      | some c =>
        match sh with
        | none => .error (.AuthError "Missing signed headers in authorization header")
        | some hs =>
          match sig with
          | none => .error (.AuthError "Missing signature in authorization header")
          | some s => .ok ⟨"AWS4-HMAC-SHA256", c, hs, s⟩

/-- AuthorizationHeader::access_key. str::split never yields an empty list, so
the is_empty error branch of the source is dead; it is kept faithfully. -/
def access_key (h : AuthorizationHeader) : Except ObjectIOError String :=
  match splitChar '/' h.credential.data with
  | [] => .error (.AuthError "Invalid credential format")
  | p :: _ => .ok (String.mk p)

/-- The match part of SigV4Validator::validate_signature over the two
hex::decode results. -/
def signatureOutcome (expected provided : Option (List Nat)) :
    Except ObjectIOError Bool :=
  match expected with
  | none => .error (.AuthError "Failed to decode expected signature")
  | some expected_bytes =>
    match provided with
    | none => .error (.AuthError "Failed to decode provided signature")
    | some provided_bytes => .ok (constant_time_eq expected_bytes provided_bytes)

/-- SigV4Validator::validate_signature: generate the expected signature,
hex-decode both signatures, compare in constant time. -/
def validate_signature (region service : String) (r : SignatureRequest)
    (auth_header : AuthorizationHeader) (secret_key : String) :
    Except ObjectIOError Bool :=
  signatureOutcome (hex_decode (generate_signature region service r secret_key))
    (hex_decode auth_header.signature)

/-! ## Auth middleware and timestamp extraction (crates/object-io-api/src/auth.rs) -/

/-- HeaderMap::get: the http crate stores names lower-cased and looks them up
case-insensitively; lookup normalizes the stored name. -/
def headerGet (headers : List (String × String)) (name : String) : Option String :=
  (headers.find? (fun nv => ascii_lower nv.1 == name)).map (fun nv => nv.2)

/-- Models chrono DateTime::parse_from_str with format "%Y%m%dT%H%M%SZ".
chrono fills the six date/time fields from the input, but
DateTime::parse_from_str then calls Parsed::to_datetime, which demands a
parsed UTC offset; this format string contains no offset item (its trailing
Z is a literal character, not a specifier), so to_datetime fails with
NOT_ENOUGH and the call returns Err for every input. -/
def dateTime_parse_from_str_amz (_input : String) : Option Timestamp := none

/-- fn extract_timestamp. The RFC 2822 parser (chrono parse_from_rfc2822,
an external library routine the claims do not constrain internally) is a
parameter. -/
def extract_timestamp (rfc2822 : String → Option Timestamp)
    (headers : List (String × String)) : Except ObjectIOError Timestamp :=
  match headerGet headers "x-amz-date" <|> headerGet headers "date" with
  | none => .error (.AuthError "Missing timestamp header (x-amz-date or Date)")
  | some timestamp_str =>
    if (timestamp_str.data.getLast? == some 'Z') &&
       timestamp_str.data.any (fun c => c == 'T') then
      match dateTime_parse_from_str_amz timestamp_str with
      | some t => .ok t
      | none => .error (.AuthError "Invalid timestamp format")
    else
      match rfc2822 timestamp_str with
      | some t => .ok t
      | none => .error (.AuthError "Invalid timestamp format")

/-- object-io-metadata models::User (fields used by the auth path). -/
structure User where
  id : Option String
  access_key : String
  secret_key : String
  is_admin : Bool

structure AuthContext where
  access_key : String
  user_id : String
  is_admin : Bool

structure Request where
  method : String
  uri_path : String
  query : Option String
  headers : List (String × String)

/-- Option::ok_or_else with an AuthError, as the auth path uses it. -/
def okOrElseAuth {α : Type} (o : Option α) (msg : String) : Except ObjectIOError α :=
  match o with
  | none => .error (.AuthError msg)
  | some a => .ok a

/-- fn authenticate_request; the Rust question-mark operator is Except bind.
The credential lookup MetadataOperations::get_user_by_access_key is
modelled as a total map from access key to an optional user record (the
claims do not cover store I/O failure). -/
def authenticate_request (users : String → Option User)
    (rfc2822 : String → Option Timestamp) (req : Request) :
    Except ObjectIOError AuthContext :=
  okOrElseAuth (headerGet req.headers "authorization") "Missing Authorization header"
    >>= fun auth_header =>
  authHeaderParse auth_header >>= fun parsed_auth =>
  access_key parsed_auth >>= fun ak =>
  okOrElseAuth (users ak) "Invalid access key" >>= fun user =>
  extract_timestamp rfc2822 req.headers >>= fun timestamp =>
  let payload_hash :=
    (headerGet req.headers "x-amz-content-sha256").getD "UNSIGNED-PAYLOAD"
  let sig_request : SignatureRequest :=
    ⟨req.method, req.uri_path, req.query.getD "", req.headers,
     payload_hash, timestamp⟩
  validate_signature "us-east-1" "s3" sig_request parsed_auth user.secret_key
    >>= fun is_valid =>
  if is_valid then .ok ⟨user.access_key, user.id.getD "", user.is_admin⟩
  else .error (.AuthError "Signature verification failed")

/-- Externally visible outcome of fn auth_middleware on an authentication
result: pass the request on, emit the S3 error response, or map to a bare
status code. -/
inductive MwOutcome where
  | forwarded
  | denied (status : Nat) (s3_code : String)
  | internal (status : Nat)
deriving DecidableEq, Repr

/-- fn auth_middleware, error-dispatch part: an AuthError value becomes the
hand-built 403 FORBIDDEN response with S3 code AccessDenied; any other error
becomes a bare 500. -/
def auth_middleware (r : Except ObjectIOError AuthContext) : MwOutcome :=
  match r with
  | .ok _ => .forwarded
  | .error (.AuthError _) => .denied 403 "AccessDenied"
  | .error _ => .internal 500

/-- The auth path only ever constructs the AuthError kind: this predicate
holds of a result that is a success or an AuthError. -/
def okOrAuth {α : Type} : Except ObjectIOError α → Prop
  | .ok _ => True
  | .error (.AuthError _) => True
  | .error _ => False

/-! ## Validation and ETag (crates/object-io-core/src/utils.rs) -/

/-- fn validate_bucket_name. Rust name.len() and name.is_empty() refer to
the UTF-8 byte length. -/
def validate_bucket_name (name : String) : Except ObjectIOError Unit :=
  if name.utf8ByteSize = 0 ∨ name.utf8ByteSize > 63 then
    .error (.InvalidBucketName name)
  else if ¬ (name.data.all fun c => c.isLower || c.isDigit || c == '-' || c == '.') then
    .error (.InvalidBucketName name)
  else if name.data.head? = some '-' ∨ name.data.getLast? = some '-' ∨
          name.data.head? = some '.' ∨ name.data.getLast? = some '.' then
    .error (.InvalidBucketName name)
  else
    .ok ()

/-- fn validate_object_key. -/
def validate_object_key (key : String) : Except ObjectIOError Unit :=
  if key.isEmpty ∨ key.utf8ByteSize > 1024 then
    .error (.InvalidObjectKey key)
  else if key.data.any (fun c => c == Char.ofNat 0) then
    .error (.InvalidObjectKey key)
  else
    .ok ()

/-- fn generate_etag: lower-case hex of the SHA-256 of the content. -/
def generate_etag (content : List Nat) : String := hex_encode (sha256 content)

/-! ## Metadata store (crates/object-io-metadata/src/operations.rs)

MetadataOperations drives a SurrealDB connection. The embedding keeps the
table contents explicit: each table row is a record id paired with the
record; id values model the fresh v4 UUIDs the source generates per insert,
realized as a counter so that every insert uses an unused id.

Database::init_schema (run from AppState::new before any handler is
reachable) installs UNIQUE indexes: bucket_name on bucket.name and
object_bucket_key on object.(bucket, key). The store therefore rejects a
create that collides on those columns with a SurrealDB IndexExists error,
whose display reads: Database index (name) already contains (value), with
record (id). The embedding enforces the indexes and models the wrapped
message up to the punctuation around the colliding value. -/

structure BucketRecord where
  name : String
  created_at : String
  updated_at : String
  owner : String
deriving DecidableEq, Repr

structure ObjectRecord where
  key : String
  bucket : String
  size : Nat
  content_type : String
  etag : String
  last_modified : String
  storage_path : String
  metadata : List (String × String)
deriving DecidableEq, Repr

structure MetaDB where
  buckets : List (Nat × BucketRecord)
  objects : List (Nat × ObjectRecord)
  nextId : Nat
deriving DecidableEq, Repr

/-- MetadataOperations::create_bucket: build the record and create it under a
fresh record id. The function itself performs no existence check, but the
store enforces the UNIQUE index bucket_name: a create for a name that
already has a row fails with IndexExists, which the map_err in the source
wraps into a DatabaseError; no row is inserted then. For a fresh name the
create succeeds and the record round-trips through serde. -/
def meta_create_bucket (db : MetaDB) (name owner now : String) :
    Except ObjectIOError BucketRecord × MetaDB :=
  if db.buckets.any (fun r => r.2.name == name) then
    (.error (.DatabaseError
        ("Failed to create bucket: Database index `bucket_name` already contains "
          ++ name)),
     db)
  else
    let bucket_record : BucketRecord := ⟨name, now, now, owner⟩
    (.ok bucket_record,
     { db with buckets := db.buckets ++ [(db.nextId, bucket_record)], nextId := db.nextId + 1 })

/-- MetadataOperations::get_bucket: SELECT * FROM bucket WHERE name = $name,
first row if any. -/
def meta_get_bucket (db : MetaDB) (name : String) : Option BucketRecord :=
  ((db.buckets.filter fun r => r.2.name == name).head?).map (fun r => r.2)

/-- MetadataOperations::delete_bucket: DELETE FROM bucket WHERE name = $name.
Only bucket rows are touched; the object table is not consulted. Returns
Ok even when no row matched. -/
def meta_delete_bucket (db : MetaDB) (name : String) :
    Except ObjectIOError Unit × MetaDB :=
  (.ok (), { db with buckets := db.buckets.filter fun r => ¬ r.2.name == name })

/-- Stable insertion sort of object records by key (ORDER BY key). -/
abbrev objKeyLe (a b : ObjectRecord) : Prop := keyLe a.key b.key = true

def sortObjRecs (rs : List ObjectRecord) : List ObjectRecord :=
  List.insertionSort objKeyLe rs

/-- MetadataOperations::list_objects: SELECT * FROM object WHERE bucket
[AND startsWith(key, prefix)] ORDER BY key [LIMIT max]. -/
def meta_list_objects (db : MetaDB) (bucket : String) (pfx : Option String)
    (max_keys : Option Nat) : List ObjectRecord :=
  let rows := db.objects.filter fun r =>
    r.2.bucket == bucket &&
      (match pfx with
       | some p => p.data.isPrefixOf r.2.key.data
       | none => true)
  let sorted := sortObjRecs (rows.map fun r => r.2)
  match max_keys with
  | some m => sorted.take m
  | none => sorted

/-- MetadataOperations::put_object_metadata: creates a fresh row under a new
record id; a row already present for the same (bucket, key) makes the
create collide on the UNIQUE index object_bucket_key, wrapped into a
DatabaseError, with no row inserted. -/
def meta_put_object_metadata (db : MetaDB) (bucket key : String) (size : Nat)
    (content_type etag storage_path : String) (metadata : List (String × String))
    (now : String) : Except ObjectIOError ObjectRecord × MetaDB :=
  if db.objects.any (fun r => r.2.bucket == bucket && r.2.key == key) then
    (.error (.DatabaseError
        ("Failed to store object metadata: Database index `object_bucket_key` already contains "
          ++ bucket ++ ", " ++ key)),
     db)
  else
    let object_record : ObjectRecord :=
      ⟨key, bucket, size, content_type, etag, now, storage_path, metadata⟩
    (.ok object_record,
     { db with objects := db.objects ++ [(db.nextId, object_record)], nextId := db.nextId + 1 })

/-- MetadataOperations::delete_object: DELETE FROM object WHERE bucket AND key. -/
def meta_delete_object (db : MetaDB) (bucket key : String) :
    Except ObjectIOError Unit × MetaDB :=
  (.ok (),
   { db with objects := db.objects.filter fun r => ¬ (r.2.bucket == bucket && r.2.key == key) })

/-! ## Filesystem storage backend (crates/object-io-storage/src/filesystem.rs)

The filesystem is an association list from path strings to file contents;
the most recent write for a path shadows earlier ones. A sidecar metadata
file holds the serde_json serialization of the metadata map, modelled as
the map itself (serialize/deserialize round-trip). -/

inductive FsVal where
  | bytes (data : List Nat)
  | meta (m : List (String × String))
deriving DecidableEq, Repr

abbrev FS := List (String × FsVal)

def fsGet (fs : FS) (p : String) : Option FsVal :=
  (fs.find? fun e => e.1 == p).map (fun e => e.2)

def fsPut (fs : FS) (p : String) (v : FsVal) : FS := (p, v) :: fs

def fsRemove (fs : FS) (p : String) : FS := fs.filter fun e => ¬ e.1 == p

/-- FilesystemStorage::bucket_path. -/
def bucket_path (root bucket : String) : String := root ++ "/" ++ bucket

/-- FilesystemStorage::object_path (PathBuf::join with a relative key). -/
def object_path (root bucket key : String) : String :=
  bucket_path root bucket ++ "/" ++ key

/-- Path::file_stem on one path component: the part before the last dot,
except that a name with no dot, or whose only dot leads it (hidden file),
is its own stem. -/
def rustFileStem (comp : List Char) : List Char :=
  let r := comp.reverse
  let e := r.takeWhile (fun c => c != '.')
  if e.length = comp.length then comp
  else if e.length + 1 = comp.length then comp
  else (r.drop (e.length + 1)).reverse

/-- Path::with_extension("meta") on one path component. -/
def withMetaExt (comp : List Char) : List Char := rustFileStem comp ++ ('.' :: ['m', 'e', 't', 'a'])

/-- The final component of a path, reversed: the characters back to the last
separator. -/
def revLastComp (p : List Char) : List Char := p.reverse.takeWhile (fun c => c != '/')

/-- FilesystemStorage::metadata_path: object_path with the extension of its
final component replaced by "meta". -/
def metadata_path (root bucket key : String) : String :=
  String.mk
    ((object_path root bucket key).data.take
        ((object_path root bucket key).data.length -
          (revLastComp (object_path root bucket key).data).length) ++
      withMetaExt (revLastComp (object_path root bucket key).data).reverse)

/-- FilesystemStorage::put_object: write the payload at the object path,
compute the ETag, and write the metadata sidecar at the metadata path
(directory creation has no observable effect in this model). -/
def fs_put_object (root : String) (fs : FS) (bucket key : String) (data : List Nat)
    (metadata : List (String × String)) : String × FS :=
  let etag := generate_etag data
  (etag,
   fsPut (fsPut fs (object_path root bucket key) (.bytes data))
     (metadata_path root bucket key) (.meta metadata))

/-- FilesystemStorage::delete_object: ObjectNotFound when the object file is
absent; otherwise remove the object file and, when present, the sidecar. -/
def fs_delete_object (root : String) (fs : FS) (bucket key : String) :
    Except ObjectIOError Unit × FS :=
  if (fsGet fs (object_path root bucket key)).isNone then
    (.error (.ObjectNotFound bucket key), fs)
  else
    let fs1 := fsRemove fs (object_path root bucket key)
    let fs2 :=
      if (fsGet fs1 (metadata_path root bucket key)).isSome then
        fsRemove fs1 (metadata_path root bucket key)
      else fs1
    (.ok (), fs2)

/-- FilesystemStorage::object_exists. -/
def fs_object_exists (root : String) (fs : FS) (bucket key : String) : Bool :=
  (fsGet fs (object_path root bucket key)).isSome

/-- FilesystemStorage::get_object_metadata: empty map when no sidecar exists;
otherwise the deserialized sidecar. A raw byte file sitting at the sidecar
path models the serde_json parse failure branch (not exercised here). -/
def fs_get_object_metadata (root : String) (fs : FS) (bucket key : String) :
    Except ObjectIOError (List (String × String)) :=
  match fsGet fs (metadata_path root bucket key) with
  | none => .ok []
  | some (.meta m) => .ok m
  | some (.bytes _) => .error (.StorageError "Failed to parse metadata")

/-! ## HTTP handlers (crates/object-io-api/src/handlers/{bucket,object}.rs)

A handler outcome is the HTTP status it resolves to, paired with the
post-state. -/

/-- Display text of an error, as the thiserror derive renders it; used by the
handlers that match on substrings of the message. -/
def errDisplay : ObjectIOError → String
  | .AuthError m => "Authentication failed: " ++ m
  | .BucketNotFound b => "Bucket not found: " ++ b
  | .ObjectNotFound b k => "Object not found: " ++ k ++ " in bucket " ++ b
  | .BucketAlreadyExists b => "Bucket already exists: " ++ b
  | .InvalidBucketName b => "Invalid bucket name: " ++ b
  | .InvalidObjectKey k => "Invalid object key: " ++ k
  | .StorageError m => "Storage error: " ++ m
  | .DatabaseError m => "Database error: " ++ m

/-- str::contains(pattern) on strings. -/
def strContainsSub (s pat : String) : Bool := subOccurs pat.data s.data

/-- fn create_bucket (PUT /{bucket}): validate the name, then create the
record; a creation error mentioning "already exists" maps to 409, any other
to 500. -/
def create_bucket_handler (db : MetaDB) (bucket_name now : String) : Nat × MetaDB :=
  match validate_bucket_name bucket_name with
  | .error _ => (400, db)
  | .ok _ =>
    match meta_create_bucket db bucket_name "default-owner" now with
    | (.ok _, db2) => (200, db2)
    | (.error e, db2) =>
      if strContainsSub (errDisplay e) "already exists" then (409, db2) else (500, db2)

/-- fn delete_bucket (DELETE /{bucket}): delegate to the metadata store; an
error mentioning "not found" maps to 404, any other to 500. -/
def delete_bucket_handler (db : MetaDB) (bucket_name : String) : Nat × MetaDB :=
  match meta_delete_bucket db bucket_name with
  | (.ok _, db2) => (204, db2)
  | (.error e, db2) =>
    if strContainsSub (errDisplay e) "not found" then (404, db2) else (500, db2)

/-- Application state threaded through the object handlers. -/
structure AppState where
  db : MetaDB
  fs : FS
deriving DecidableEq, Repr

/-- fn delete_object (DELETE /{bucket}/{key}): 404 if the bucket record is
absent; otherwise delete from storage, mapping both success and
ObjectNotFound to 204 and any other storage error to 500. -/
def delete_object_handler (root : String) (st : AppState) (bucket key : String) :
    Nat × AppState :=
  match meta_get_bucket st.db bucket with
  | none => (404, st)
  | some _ =>
    match fs_delete_object root st.fs bucket key with
    | (.ok _, fs2) => (204, ⟨st.db, fs2⟩)
    | (.error (.ObjectNotFound _ _), fs2) => (204, ⟨st.db, fs2⟩)
    | (.error _, fs2) => (500, ⟨st.db, fs2⟩)

/-! ## Embedded key-value store draft (crates/object-io-database/src/operations.rs)

ObjectDB keeps sled trees for buckets (keyed by name), objects (keyed by
"bucket:key") and users. This is the only draft in the source that carries
the bucket accounting counters of the specification. u64 counters are Nat
with wrap-around modulo 2^64 on increment and saturation on subtraction. -/

structure BucketInfo where
  name : String
  owner : String
  region : String
  versioning_enabled : Bool
  object_count : Nat
  total_size : Nat
deriving DecidableEq, Repr

structure OdbObjectInfo where
  key : String
  bucket : String
  size : Nat
  content_type : String
  etag : String
deriving DecidableEq, Repr

structure ObjectDB where
  buckets : List (String × BucketInfo)
  objects : List (String × OdbObjectInfo)
deriving DecidableEq, Repr

def odbBucketsGet (db : ObjectDB) (name : String) : Option BucketInfo :=
  (db.buckets.find? fun e => e.1 == name).map (fun e => e.2)

/-- sled Tree::insert: overwrite the value under the key. -/
def odbInsertBucket (db : ObjectDB) (name : String) (v : BucketInfo) : ObjectDB :=
  { db with buckets := (name, v) :: db.buckets.filter fun e => ¬ e.1 == name }

def odbObjectsGet (db : ObjectDB) (k : String) : Option OdbObjectInfo :=
  (db.objects.find? fun e => e.1 == k).map (fun e => e.2)

def odbInsertObject (db : ObjectDB) (k : String) (v : OdbObjectInfo) : ObjectDB :=
  { db with objects := (k, v) :: db.objects.filter fun e => ¬ e.1 == k }

def odbRemoveObject (db : ObjectDB) (k : String) : ObjectDB :=
  { db with objects := db.objects.filter fun e => ¬ e.1 == k }

/-- BucketInfo::new: zeroed counters. -/
def bucketInfoNew (name owner region : String) : BucketInfo :=
  ⟨name, owner, region, false, 0, 0⟩

/-- ObjectDB::create_bucket: reject an existing name, else insert. -/
def odb_create_bucket (db : ObjectDB) (info : BucketInfo) :
    Except String Unit × ObjectDB :=
  if (odbBucketsGet db info.name).isSome then
    (.error ("Bucket '" ++ info.name ++ "' already exists"), db)
  else
    (.ok (), odbInsertBucket db info.name info)

/-- ObjectDB::update_bucket. -/
def odb_update_bucket (db : ObjectDB) (info : BucketInfo) :
    Except String Unit × ObjectDB :=
  if (odbBucketsGet db info.name).isNone then
    (.error ("Bucket '" ++ info.name ++ "' does not exist"), db)
  else
    (.ok (), odbInsertBucket db info.name info)

/-- ObjectDB::put_object: overwrite the object row, then increment the owning
bucket counters unconditionally — also when the insert replaced an
existing row for the same key. -/
def odb_put_object (db : ObjectDB) (info : OdbObjectInfo) :
    Except String Unit × ObjectDB :=
  let k := info.bucket ++ ":" ++ info.key
  let db1 := odbInsertObject db k info
  match odbBucketsGet db1 info.bucket with
  | some b =>
    let b2 := { b with
      object_count := (b.object_count + 1) % 18446744073709551616,
      total_size := (b.total_size + info.size) % 18446744073709551616 }
    (.ok (), (odb_update_bucket db1 b2).2)
  | none => (.ok (), db1)

/-- ObjectDB::delete_object: false when the row is absent; otherwise remove
it and decrement the counters with saturation. -/
def odb_delete_object (db : ObjectDB) (bucket key : String) :
    Except String Bool × ObjectDB :=
  let k := bucket ++ ":" ++ key
  match odbObjectsGet db k with
  | none => (.ok false, db)
  | some obj =>
    let db1 := odbRemoveObject db k
    match odbBucketsGet db1 bucket with
    | some b =>
      let b2 := { b with
        object_count := b.object_count - 1,
        total_size := b.total_size - obj.size }
      (.ok true, (odb_update_bucket db1 b2).2)
    | none => (.ok true, db1)

/-- ObjectDB::get_object_count: recount the object rows under the bucket
prefix. -/
def odb_get_object_count (db : ObjectDB) (bucket : String) : Nat :=
  (db.objects.filter fun e => (bucket ++ ":").data.isPrefixOf e.1.data).length

/-- Sum of the sizes of the live object rows of a bucket. -/
def odbLiveSize (db : ObjectDB) (bucket : String) : Nat :=
  ((db.objects.filter fun e => (bucket ++ ":").data.isPrefixOf e.1.data).map
    fun e => e.2.size).sum

/-! ## Specification-side definitions

These follow the wording of the specification and the claims; they exist to
be compared against the embeddings above, never to replace them. -/

/-- Percent-decoding as the claim for the canonical query string reads it:
a percent sign followed by two hex digits becomes the denoted byte. -/
def percentDecodeChars : List Char → List Char
  | '%' :: c1 :: c2 :: rest =>
    (match hexDigitVal c1, hexDigitVal c2 with
     | some d1, some d2 => Char.ofNat (d1 * 16 + d2) :: percentDecodeChars rest
     | _, _ => '%' :: percentDecodeChars (c1 :: c2 :: rest))
  | c :: rest => c :: percentDecodeChars rest
  | [] => []

def percent_decode (s : String) : String := String.mk (percentDecodeChars s.data)

/-- The canonical query string exactly as claim C3 words it: split on the
ampersand, percent-decode then re-encode each key and value independently,
sort pairs by key, rejoin. -/
def claim_canonical_query_string (query_string : String) : String :=
  if query_string = "" then "" else
  let params := (splitChar '&' query_string.data).map fun param =>
    match splitFirstEq param with
    | (k, some v) =>
        (percent_encode (percent_decode (String.mk k)),
         percent_encode (percent_decode (String.mk v)))
    | (k, none) => (percent_encode (percent_decode (String.mk k)), "")
  intercalateStr "&" ((sortPairs params).map renderPair)

/-- The bucket-name grammar exactly as claim C5 words it: length 3 to 63,
lowercase letters, digits, dash and dot only, no leading or trailing dash
or dot, no consecutive dots. -/
def claim_bucket_grammar (name : String) : Bool :=
  3 ≤ name.utf8ByteSize && name.utf8ByteSize ≤ 63 &&
  name.data.all (fun c => c.isLower || c.isDigit || c == '-' || c == '.') &&
  !(name.data.head? == some '-') && !(name.data.getLast? == some '-') &&
  !(name.data.head? == some '.') && !(name.data.getLast? == some '.') &&
  !(strContainsSub name "..")

/-- The grammar validate_bucket_name actually decides: nonempty, at most 63
bytes, same character set and edge restrictions, but no minimum length of 3
and no ban on consecutive dots. -/
def amended_bucket_grammar (name : String) : Bool :=
  1 ≤ name.utf8ByteSize && name.utf8ByteSize ≤ 63 &&
  name.data.all (fun c => c.isLower || c.isDigit || c == '-' || c == '.') &&
  !(name.data.head? == some '-') && !(name.data.getLast? == some '-') &&
  !(name.data.head? == some '.') && !(name.data.getLast? == some '.')

/-! ## Theorems -/

/-- C1: for every secret key and timestamp (and region, service, request),
the signature the validator computes is HMAC(kSigning, stringToSign)
hex-encoded, where the string to sign is the four-line string of the
algorithm name, the timestamp as YYYYMMDDTHHMMSSZ, the scope
date/region/service/aws4_request, and the SHA256 hex of the canonical
request; and kSigning is the four-step chain kDate = HMAC("AWS4"+secret,
date), kRegion = HMAC(kDate, region), kService = HMAC(kRegion, service),
kSigning = HMAC(kService, "aws4_request"). -/
theorem C1_signature_formula (region service secret_key : String)
    (r : SignatureRequest) :
    generate_signature region service r secret_key =
      hex_encode (hmac_sha256
        (hmac_sha256
          (hmac_sha256
            (hmac_sha256
              (hmac_sha256 (strBytes ("AWS4" ++ secret_key))
                (strBytes (format_date r.timestamp)))
              (strBytes region))
            (strBytes service))
          (strBytes "aws4_request"))
        (strBytes ("AWS4-HMAC-SHA256" ++ "\n" ++ format_amz r.timestamp ++ "\n"
          ++ (format_date r.timestamp ++ "/" ++ region ++ "/" ++ service
              ++ "/aws4_request") ++ "\n"
          ++ hex_encode (sha256 (strBytes (create_canonical_request r)))))) := by
  rfl

/-- C4: the claim promises that a well-formed x-amz-date value such as
20230101T120000Z yields the parsed instant; the code instead reaches
chrono DateTime::parse_from_str with a format carrying no UTC-offset item,
which fails for every input, so the well-formed value produces AuthError.
This holds for every model of the RFC 2822 fallback parser. -/
theorem C4_wellformed_amz_date_errors (rfc2822 : String → Option Timestamp) :
    extract_timestamp rfc2822 [("x-amz-date", "20230101T120000Z")] =
      .error (.AuthError "Invalid timestamp format") ∧
    dateTime_parse_from_str_amz "20230101T120000Z" = none := by
  exact ⟨rfl, rfl⟩

/-- C6: the claim requires a second CreateBucket on an existing name to fail
with 409 BucketAlreadyExists; in the wired system the UNIQUE index
bucket_name rejects the duplicate create with an IndexExists error whose
message says already contains, which the handler substring check for
already exists misses, so the duplicate create surfaces as 500, not 409.
No second record is inserted. -/
theorem C6_duplicate_create_is_500 :
    (create_bucket_handler ⟨[], [], 0⟩ "my-bucket" "t0").1 = 200 ∧
    (create_bucket_handler
        (create_bucket_handler ⟨[], [], 0⟩ "my-bucket" "t0").2 "my-bucket" "t1").1 = 500 ∧
    (((create_bucket_handler
        (create_bucket_handler ⟨[], [], 0⟩ "my-bucket" "t0").2 "my-bucket" "t1").2).buckets.filter
      (fun r => r.2.name == "my-bucket")).length = 1 := by
  decide

/-- C7: the claim requires DeleteBucket to remove every contained object
before dropping the bucket record; metadata delete_bucket touches only the
bucket table, so after deleting and recreating the bucket, ListObjects
still returns the residual object of the prior instance. -/
theorem C7_residual_objects_after_delete :
    (delete_bucket_handler
        ⟨[(0, ⟨"b", "t0", "t0", "o"⟩)],
         [(1, ⟨"k", "b", 5, "text/plain", "e", "t0", "data/b/k", []⟩)], 2⟩ "b").1 = 204 ∧
    (create_bucket_handler
        (delete_bucket_handler
          ⟨[(0, ⟨"b", "t0", "t0", "o"⟩)],
           [(1, ⟨"k", "b", 5, "text/plain", "e", "t0", "data/b/k", []⟩)], 2⟩ "b").2
        "b" "t1").1 = 200 ∧
    meta_list_objects
        (create_bucket_handler
          (delete_bucket_handler
            ⟨[(0, ⟨"b", "t0", "t0", "o"⟩)],
             [(1, ⟨"k", "b", 5, "text/plain", "e", "t0", "data/b/k", []⟩)], 2⟩ "b").2
          "b" "t1").2
        "b" none none =
      [⟨"k", "b", 5, "text/plain", "e", "t0", "data/b/k", []⟩] := by
  decide

/-- C9: the claim requires the bucket object count and total size to match
the live objects after every operation; in the only draft that maintains
counters, overwriting an existing key bumps the counters again, so after
putting key k twice (sizes 5 then 7) one live object of size 7 remains
while the bucket record reads two objects of total size 12 — contradicting
the recount the same module computes. -/
theorem C9_overwrite_double_counts :
    odb_get_object_count
        (odb_put_object
          (odb_put_object
            (odb_create_bucket ⟨[], []⟩ (bucketInfoNew "b" "o" "us-east-1")).2
            ⟨"k", "b", 5, "text/plain", "e1"⟩).2
          ⟨"k", "b", 7, "text/plain", "e2"⟩).2 "b" = 1 ∧
    odbLiveSize
        (odb_put_object
          (odb_put_object
            (odb_create_bucket ⟨[], []⟩ (bucketInfoNew "b" "o" "us-east-1")).2
            ⟨"k", "b", 5, "text/plain", "e1"⟩).2
          ⟨"k", "b", 7, "text/plain", "e2"⟩).2 "b" = 7 ∧
    (odbBucketsGet
        (odb_put_object
          (odb_put_object
            (odb_create_bucket ⟨[], []⟩ (bucketInfoNew "b" "o" "us-east-1")).2
            ⟨"k", "b", 5, "text/plain", "e1"⟩).2
          ⟨"k", "b", 7, "text/plain", "e2"⟩).2 "b").map
      (fun b => (b.object_count, b.total_size)) = some (2, 12) := by
  decide

/-- C5 counterexample: the claim rejects "ab" (too short) and "a..b"
(consecutive dots), but validate_bucket_name accepts both. -/
theorem C5_counterexample_short_name_accepted :
    validate_bucket_name "ab" = .ok () ∧ claim_bucket_grammar "ab" = false ∧
    validate_bucket_name "a..b" = .ok () ∧ claim_bucket_grammar "a..b" = false := by
  decide


theorem bytesLe_total (a : List Nat) : ∀ b, bytesLe a b = true ∨ bytesLe b a = true := by
  induction a with
  | nil => intro b; left; rfl
  | cons x xs ih =>
    intro b
    cases b with
    | nil => right; rfl
    | cons y ys =>
      by_cases h1 : x < y
      · left; simp [bytesLe, h1]
      · by_cases h2 : y < x
        · right; simp [bytesLe, h2]
        · have hxy : x = y := by omega
          subst hxy
          rcases ih ys with h | h
          · left; simp [bytesLe, h1, h]
          · right; simp [bytesLe, h2, h]

theorem bytesLe_trans : ∀ {a b c : List Nat},
    bytesLe a b = true → bytesLe b c = true → bytesLe a c = true := by
  intro a
  induction a with
  | nil => intro b c _ _; rfl
  | cons x xs ih =>
    intro b c hab hbc
    cases b with
    | nil => simp [bytesLe] at hab
    | cons y ys =>
      cases c with
      | nil => simp [bytesLe] at hbc
      | cons z zs =>
        simp only [bytesLe] at hab hbc ⊢
        split_ifs at hab hbc ⊢ <;> first
          | rfl
          | omega
          | (exact ih hab hbc)

/-- C3 counterexample. -/
theorem C3_counterexample_decode_reencode :
    canonical_query_string "prefix=somePrefix&delimiter=%2F&max-keys=2" =
      "delimiter=%252F&max-keys=2&prefix=somePrefix" ∧
    claim_canonical_query_string "prefix=somePrefix&delimiter=%2F&max-keys=2" =
      "delimiter=%2F&max-keys=2&prefix=somePrefix" ∧
    claim_canonical_query_string "prefix=somePrefix&delimiter=%2F&max-keys=2" ≠
      canonical_query_string "prefix=somePrefix&delimiter=%2F&max-keys=2" := by
  refine ⟨by decide, by decide, by decide⟩

/-- C3 amended. -/
theorem C3_amended_direct_encoding :
    (∀ qs : String, qs ≠ "" →
      (sortPairs (queryPairs qs)).Perm (queryPairs qs) ∧
      List.Sorted pairKeyLe (sortPairs (queryPairs qs)) ∧
      canonical_query_string qs =
        intercalateStr "&" ((sortPairs (queryPairs qs)).map renderPair)) ∧
    canonical_query_string "prefix=somePrefix&delimiter=%2F&max-keys=2" =
      "delimiter=%252F&max-keys=2&prefix=somePrefix" := by
  constructor
  · intro qs hqs
    refine ⟨List.perm_insertionSort _ _, ?_, ?_⟩
    · haveI : IsTotal (String × String) pairKeyLe := ⟨fun a b => bytesLe_total _ _⟩
      haveI : IsTrans (String × String) pairKeyLe := ⟨fun a b c => bytesLe_trans⟩
      exact List.sorted_insertionSort _ _
    · simp [canonical_query_string, hqs]
  · decide

theorem C3_amended_witness :
    (sortPairs (queryPairs "delimiter=%2F")).Perm (queryPairs "delimiter=%2F") ∧
    List.Sorted pairKeyLe (sortPairs (queryPairs "delimiter=%2F")) ∧
    canonical_query_string "delimiter=%2F" =
      intercalateStr "&" ((sortPairs (queryPairs "delimiter=%2F")).map renderPair) :=
  C3_amended_direct_encoding.1 "delimiter=%2F" (by decide)

/-- C5 amended. -/
theorem C5_amended_grammar (name : String) :
    validate_bucket_name name = .ok () ↔ amended_bucket_grammar name = true := by
  unfold validate_bucket_name amended_bucket_grammar
  split_ifs with h1 h2 h3 <;> simp_all
  · omega
  · intro _ ha hb hc
    rcases h3 with h | h | h | h
    · exact absurd h ha
    · exact absurd h hb
    · exact absurd h hc
    · exact h
  · omega


theorem okOrAuth_authHeaderParse (s : String) : okOrAuth (authHeaderParse s) := by
  unfold authHeaderParse
  repeat' split
  all_goals trivial

theorem okOrAuth_access_key (h : AuthorizationHeader) : okOrAuth (access_key h) := by
  unfold access_key
  split <;> trivial

theorem okOrAuth_extract_timestamp (rfc2822 : String → Option Timestamp)
    (headers : List (String × String)) : okOrAuth (extract_timestamp rfc2822 headers) := by
  unfold extract_timestamp
  repeat' split
  all_goals trivial

theorem okOrAuth_signatureOutcome (e p : Option (List Nat)) :
    okOrAuth (signatureOutcome e p) := by
  cases e <;> cases p <;> trivial

theorem okOrAuth_validate_signature (region service : String) (r : SignatureRequest)
    (a : AuthorizationHeader) (sk : String) :
    okOrAuth (validate_signature region service r a sk) :=
  okOrAuth_signatureOutcome _ _

theorem okOrAuth_okOrElseAuth {α : Type} (o : Option α) (msg : String) :
    okOrAuth (okOrElseAuth o msg) := by
  cases o <;> trivial

theorem okOrAuth_bind {α β : Type} {x : Except ObjectIOError α}
    {f : α → Except ObjectIOError β}
    (hx : okOrAuth x) (hf : ∀ a, okOrAuth (f a)) : okOrAuth (x >>= f) := by
  cases x with
  | error e =>
    have hb : (Except.error e >>= f : Except ObjectIOError β) = Except.error e := rfl
    rw [hb]
    cases e <;> exact hx
  | ok a =>
    have hb : (Except.ok a >>= f : Except ObjectIOError β) = f a := rfl
    rw [hb]
    exact hf a

theorem okOrAuth_authenticate_request (users : String → Option User)
    (rfc2822 : String → Option Timestamp) (req : Request) :
    okOrAuth (authenticate_request users rfc2822 req) := by
  refine okOrAuth_bind (okOrAuth_okOrElseAuth _ _) fun auth_header => ?_
  refine okOrAuth_bind (okOrAuth_authHeaderParse _) fun parsed_auth => ?_
  refine okOrAuth_bind (okOrAuth_access_key _) fun ak => ?_
  refine okOrAuth_bind (okOrAuth_okOrElseAuth _ _) fun user => ?_
  refine okOrAuth_bind (okOrAuth_extract_timestamp _ _) fun timestamp => ?_
  refine okOrAuth_bind (okOrAuth_validate_signature _ _ _ _ _) fun is_valid => ?_
  cases is_valid <;> trivial

/-- C2: every authentication failure — missing or malformed Authorization
header, unknown access key, unparseable timestamp, signature mismatch —
surfaces as the single AuthError kind, which auth_middleware renders as
HTTP 403 with S3 code AccessDenied; no sub-reason is distinguishable by
error kind or status code. -/
theorem C2_all_auth_failures_are_access_denied (users : String → Option User)
    (rfc2822 : String → Option Timestamp) (req : Request) :
    auth_middleware (authenticate_request users rfc2822 req) = .forwarded ∨
    auth_middleware (authenticate_request users rfc2822 req) = .denied 403 "AccessDenied" := by
  have hk := okOrAuth_authenticate_request users rfc2822 req
  cases hr : authenticate_request users rfc2822 req with
  | ok ctx => left; rfl
  | error e =>
    rw [hr] at hk
    cases e with
    | AuthError m => right; rfl
    | _ => exact absurd hk (by simp [okOrAuth])


/-- C8: for every existing bucket and every key, DeleteObject returns 204
even when the object does not exist, and a second call on the same absent
key returns 204 again; the state is unchanged. -/
theorem C8_delete_absent_object_is_204 (root : String) (st : AppState)
    (bucket key : String)
    (hb : (meta_get_bucket st.db bucket).isSome = true)
    (hk : fsGet st.fs (object_path root bucket key) = none) :
    delete_object_handler root st bucket key = (204, st) ∧
    delete_object_handler root (delete_object_handler root st bucket key).2 bucket key
      = (204, st) := by
  have h1 : delete_object_handler root st bucket key = (204, st) := by
    rcases Option.isSome_iff_exists.mp hb with ⟨b, hbEq⟩
    unfold delete_object_handler fs_delete_object
    rw [hbEq, hk]
    rfl
  exact ⟨h1, by rw [h1]; exact h1⟩

theorem C8_witness :
    delete_object_handler "data" ⟨⟨[(0, ⟨"b", "t0", "t0", "o"⟩)], [], 1⟩, []⟩ "b" "k"
      = (204, ⟨⟨[(0, ⟨"b", "t0", "t0", "o"⟩)], [], 1⟩, []⟩) ∧
    delete_object_handler "data"
      (delete_object_handler "data" ⟨⟨[(0, ⟨"b", "t0", "t0", "o"⟩)], [], 1⟩, []⟩ "b" "k").2
      "b" "k" = (204, ⟨⟨[(0, ⟨"b", "t0", "t0", "o"⟩)], [], 1⟩, []⟩) :=
  C8_delete_absent_object_is_204 "data" ⟨⟨[(0, ⟨"b", "t0", "t0", "o"⟩)], [], 1⟩, []⟩
    "b" "k" (by decide) (by decide)


theorem takeWhile_all {α : Type} {p : α → Bool} {l : List α} (h : ∀ a ∈ l, p a = true) :
    l.takeWhile p = l := by
  induction l with
  | nil => rfl
  | cons a l ih =>
    rw [List.takeWhile_cons_of_pos (h a (by simp))]
    rw [ih (fun x hx => h x (by simp [hx]))]

theorem revLastComp_stem_ext (root bucket stem ext : String)
    (hq : ∀ c ∈ ext.data.reverse, (fun c => c != '/') c = true) :
    revLastComp (object_path root bucket (stem ++ "." ++ ext)).data =
      ext.data.reverse ++ '.' :: revLastComp stem.data := by
  have hsplit : ∀ l2 : List Char,
      ((stem.data.reverse ++ '/' :: l2).takeWhile (fun c => c != '/')) =
        stem.data.reverse.takeWhile (fun c => c != '/') := by
    intro l2
    rw [List.takeWhile_append]
    split
    · rename_i hlen
      rw [List.takeWhile_cons_of_neg (by simp), List.append_nil,
          (List.takeWhile_prefix _).eq_of_length hlen]
    · rfl
  have hdata : (object_path root bucket (stem ++ "." ++ ext)).data =
      ((bucket_path root bucket ++ "/").data ++ stem.data) ++ ('.' :: ext.data) := by
    simp [object_path, bucket_path]
  have h1 : (((bucket_path root bucket ++ "/").data ++ stem.data) ++ ('.' :: ext.data)).reverse =
      ext.data.reverse ++ ('.' :: (stem.data.reverse ++
        ('/' :: (bucket_path root bucket).data.reverse))) := by
    simp
  unfold revLastComp
  rw [hdata, h1]
  rw [List.takeWhile_append_of_pos hq]
  congr 1
  rw [List.takeWhile_cons_of_pos (by decide)]
  congr 1
  exact hsplit _


theorem withMetaExt_comp (sComp E : List Char)
    (hqd : ∀ c ∈ E.reverse, (fun c => c != '.') c = true)
    (hpos : 0 < sComp.length) :
    withMetaExt (E.reverse ++ '.' :: sComp).reverse =
      sComp.reverse ++ ('.' :: ['m', 'e', 't', 'a']) := by
  have hr : ((E.reverse ++ '.' :: sComp).reverse).reverse = E.reverse ++ '.' :: sComp :=
    List.reverse_reverse _
  have he : (E.reverse ++ '.' :: sComp).takeWhile (fun c => c != '.') = E.reverse := by
    rw [List.takeWhile_append]
    rw [takeWhile_all hqd]
    simp
  simp only [withMetaExt, rustFileStem, hr, he]
  have hlenc : (E.reverse ++ '.' :: sComp).reverse.length = E.length + 1 + sComp.length := by
    simp
    omega
  have hlenE : E.reverse.length = E.length := List.length_reverse E
  rw [hlenc, hlenE]
  rw [if_neg (by omega), if_neg (by omega)]
  congr 1
  have hdrop : (E.reverse ++ '.' :: sComp).drop (E.length + 1) = sComp := by
    have : E.reverse ++ '.' :: sComp = (E.reverse ++ ['.']) ++ sComp := by simp
    rw [this]
    exact List.drop_left' (by simp)
  rw [hdrop]


theorem metadata_path_stem_ext (root bucket stem ext : String)
    (hx : ∀ c ∈ ext.data, (c != '.') = true ∧ (c != '/') = true)
    (hs : revLastComp stem.data ≠ []) :
    metadata_path root bucket (stem ++ "." ++ ext) =
      String.mk
        (((bucket_path root bucket ++ "/").data ++ stem.data).take
            ((bucket_path root bucket ++ "/").data.length + stem.data.length -
              (revLastComp stem.data).length) ++
          ((revLastComp stem.data).reverse ++ ('.' :: ['m', 'e', 't', 'a']))) := by
  have hq : ∀ c ∈ ext.data.reverse, (fun c => c != '/') c = true :=
    fun c hc => (hx c (List.mem_reverse.mp hc)).2
  have hqd : ∀ c ∈ ext.data.reverse, (fun c => c != '.') c = true :=
    fun c hc => (hx c (List.mem_reverse.mp hc)).1
  have hpos : 0 < (revLastComp stem.data).length := List.length_pos.mpr hs
  have hslen : (revLastComp stem.data).length ≤ stem.data.length := by
    unfold revLastComp
    calc (stem.data.reverse.takeWhile (fun c => c != '/')).length
        ≤ stem.data.reverse.length := (List.takeWhile_prefix _).length_le
      _ = stem.data.length := List.length_reverse stem.data
  have hdata : (object_path root bucket (stem ++ "." ++ ext)).data =
      ((bucket_path root bucket ++ "/").data ++ stem.data) ++ ('.' :: ext.data) := by
    simp [object_path, bucket_path]
  unfold metadata_path
  rw [revLastComp_stem_ext root bucket stem ext hq]
  rw [withMetaExt_comp _ _ hqd hpos]
  rw [hdata]
  congr 2
  have harith :
      (((bucket_path root bucket ++ "/").data ++ stem.data) ++ ('.' :: ext.data)).length -
        (ext.data.reverse ++ '.' :: revLastComp stem.data).length =
      (bucket_path root bucket ++ "/").data.length + stem.data.length -
        (revLastComp stem.data).length := by
    simp only [List.length_append, List.length_cons, List.length_reverse]
    omega
  rw [harith]
  rw [List.take_append_eq_append_take]
  have hz : (bucket_path root bucket ++ "/").data.length + stem.data.length -
      (revLastComp stem.data).length -
      ((bucket_path root bucket ++ "/").data ++ stem.data).length = 0 := by
    simp only [List.length_append]
    omega
  rw [hz]
  simp

/-- C10: in the filesystem backend the sidecar path replaces the final
extension of the object key with meta, so two distinct keys differing only
in their final extension share one sidecar: a Put of the second key
overwrites the stored custom metadata of the first, and GetMetadata of the
first key afterwards returns the metadata map of the second. -/
theorem C10_shared_sidecar (root bucket stem e1 e2 : String) (fs : FS)
    (d1 d2 : List Nat) (m1 m2 : List (String × String))
    (h1 : ∀ c ∈ e1.data, (c != '.') = true ∧ (c != '/') = true)
    (h2 : ∀ c ∈ e2.data, (c != '.') = true ∧ (c != '/') = true)
    (hs : revLastComp stem.data ≠ [])
    (hne : e1 ≠ e2) :
    stem ++ "." ++ e1 ≠ stem ++ "." ++ e2 ∧
    metadata_path root bucket (stem ++ "." ++ e1) =
      metadata_path root bucket (stem ++ "." ++ e2) ∧
    fs_get_object_metadata root
        (fs_put_object root (fs_put_object root fs bucket (stem ++ "." ++ e1) d1 m1).2
          bucket (stem ++ "." ++ e2) d2 m2).2
        bucket (stem ++ "." ++ e1) = .ok m2 := by
  have hpath : metadata_path root bucket (stem ++ "." ++ e1) =
      metadata_path root bucket (stem ++ "." ++ e2) := by
    rw [metadata_path_stem_ext root bucket stem e1 h1 hs,
        metadata_path_stem_ext root bucket stem e2 h2 hs]
  refine ⟨?_, hpath, ?_⟩
  · intro hEq
    apply hne
    have hd := congrArg String.data hEq
    simp only [String.data_append, List.append_assoc] at hd
    have h3 := List.append_cancel_left hd
    have h4 := List.append_cancel_left h3
    cases e1
    cases e2
    congr 1
  · unfold fs_get_object_metadata fs_put_object
    simp only [fsGet, fsPut]
    rw [hpath]
    rw [List.find?_cons_of_pos _ (by simp)]
    simp

theorem C10_witness :
    ("file" ++ "." ++ "txt" : String) ≠ "file" ++ "." ++ "jpg" ∧
    metadata_path "data" "b" ("file" ++ "." ++ "txt") =
      metadata_path "data" "b" ("file" ++ "." ++ "jpg") ∧
    fs_get_object_metadata "data"
        (fs_put_object "data"
          (fs_put_object "data" [] "b" ("file" ++ "." ++ "txt") [1] [("k1", "v1")]).2
          "b" ("file" ++ "." ++ "jpg") [2] [("k2", "v2")]).2
        "b" ("file" ++ "." ++ "txt") = .ok [("k2", "v2")] :=
  C10_shared_sidecar "data" "b" "file" "txt" "jpg" [] [1] [2] [("k1", "v1")] [("k2", "v2")]
    (by decide) (by decide) (by decide) (by decide)

end OIO
